import Mathlib

/-
Verification development for the CorrelHeatmap repository.

Shallow embedding of the computational core:
  - src/correlheatmap/analysis.py   (compute_returns, _align_returns,
    compute_correlation_matrix, CorrelationResult)
  - src/correlheatmap/visualization.py  (_interpolate_colour, correlation_to_hex)

Modelling conventions:
  - dates are Nat (Python `date` values are totally ordered; only ordering and
    equality matter to the code);
  - prices, returns and correlations are real numbers (idealising floats);
  - Python `sorted` is a stable sort by key; we embed it as Mathlib's
    insertionSort, which is also stable, so both produce the same list for the
    same total preorder;
  - Python string comparison is lexicographic on code points, embedded as the
    lexicographic order on the underlying character list (equivalent to Lean's
    String order by String.le_iff_toList_le, but kernel-reducible);
  - Python dicts are embedded as association lists; a value lookup takes the
    last binding (assignment overwrites) and the key list is deduplicated;
  - a raised ValueError is embedded as an Except error; the error kind
    (InsufficientData vs InvalidParameter) is the classification the spec
    gives to each raise site, and the embedded message is the raise message
    of the source (apostrophes dropped).
-/

namespace CorrelHeatmap

/-- Error kinds of the spec: `InsufficientData` and `InvalidParameter`,
each carrying the message of the corresponding `raise ValueError(...)`. -/
inductive CorrelError where
  | insufficientData (msg : String)
  | invalidParameter (msg : String)
  deriving DecidableEq

/-- PricePoint from data.py: a (date, price) pair. -/
abbrev PricePoint := Nat × ℝ

/-- ReturnPoint from analysis.py: a (date, return value) pair. -/
abbrev ReturnPoint := Nat × ℝ

/-- PriceHistory from data.py: a dict from ticker to price series, embedded as
an association list (a genuine dict has pairwise distinct keys). -/
abbrev PriceHistory := List (String × List PricePoint)

/-- Python string comparison: lexicographic on code points. -/
def strLe (a b : String) : Prop := a.toList ≤ b.toList

instance : DecidableRel strLe :=
  fun a b => inferInstanceAs (Decidable (a.toList ≤ b.toList))

instance : IsTotal String strLe := ⟨fun a b => le_total a.toList b.toList⟩

instance : IsTrans String strLe := ⟨fun _ _ _ h h2 => le_trans h h2⟩

/-- Message of the raise at line 27 of analysis.py. -/
def msgTooShort : String := "At least two price observations are required to compute returns."

/-- Message of the raise at line 30 of analysis.py. -/
def msgBadType : String := "Return type must be log or pct."

/-- Message of the raise at line 48 of analysis.py. -/
def msgNoValid : String := "Unable to compute returns due to non-positive prices or insufficient data."

/-- Message of the raise at line 62 of analysis.py. -/
def msgFewTickers : String := "At least two tickers are required to compute correlations."

/-- Message of the raise at line 66 of analysis.py. -/
def msgFewDates : String := "Not enough overlapping return observations across tickers."

/-- Message of the raise at line 87 of analysis.py. -/
def msgFewObs : String := "Not enough return observations to compute correlation."

/-- Body of the branch at lines 40-43 of analysis.py: the value appended for a
valid (previous, current) transition.  `return_type` is already validated, so
the else branch is exactly the "pct" case. -/
noncomputable def returnValue (rt : String) (prev cur : ℝ) : ℝ :=
  if rt = "log" then Real.log (cur / prev) else (cur - prev) / prev

/-- Loop of lines 35-45 of analysis.py: walk the date-sorted series, skipping a
transition when either endpoint price is non-positive, and advancing the
`previous` point unconditionally. -/
noncomputable def returnsLoop (rt : String) : PricePoint → List PricePoint → List ReturnPoint
  | _, [] => []
  | prev, cur :: rest =>
    if prev.2 ≤ 0 ∨ cur.2 ≤ 0 then returnsLoop rt cur rest
    else (cur.1, returnValue rt prev.2 cur.2) :: returnsLoop rt cur rest

/-- Loop of lines 35-45 together with the initialisation `previous = ordered[0]`
(line 35).  An empty list yields no returns (unreachable: the caller has
already checked `len(series) >= 2`). -/
noncomputable def returnsLoopAll (rt : String) : List PricePoint → List ReturnPoint
  | [] => []
  | first :: rest => returnsLoop rt first rest

/-- Line 32 of analysis.py: `sorted(series, key=lambda item: item[0])`, a
stable sort by date, embedded as insertion sort (also stable). -/
def sortByDate (series : List PricePoint) : List PricePoint :=
  List.insertionSort (fun a b => a.1 ≤ b.1) series

/-- compute_returns from analysis.py lines 23-49. -/
noncomputable def compute_returns (series : List PricePoint) (rt : String) :
    Except CorrelError (List ReturnPoint) :=
  if series.length < 2 then
    .error (.insufficientData msgTooShort)
  else if ¬(rt = "log" ∨ rt = "pct") then
    .error (.invalidParameter msgBadType)
  else
    let returns := returnsLoopAll rt (sortByDate series)
    if returns.isEmpty then
      .error (.insufficientData msgNoValid)
    else .ok returns

/-- Key list of the dict comprehension at line 58 of analysis.py: the distinct
dates of a return list. -/
def dictKeys (l : List ReturnPoint) : List Nat :=
  (l.map Prod.fst).dedup

/-- Value lookup in the dict comprehension at line 58: the last binding wins
(dict assignment overwrites); the default is never reached at call sites
because the looked-up date is a key. -/
def dictLookup (l : List ReturnPoint) (d : Nat) : ℝ :=
  (((l.filter (fun p => p.1 == d)).getLast?).elim 0 Prod.snd)

/-- Lookup of `ticker_returns[ticker]` (line 71): the return list stored for a
ticker; the last binding wins, matching dict assignment. -/
def lookupTicker (tr : List (String × List ReturnPoint)) (t : String) : List ReturnPoint :=
  (((tr.filter (fun p => p.1 == t)).getLast?).elim [] Prod.snd)

/-- Loop of lines 55-58 of analysis.py: compute returns for every ticker in
iteration order; the first failure propagates for the whole call. -/
noncomputable def tickerReturns (ph : PriceHistory) (rt : String) :
    Except CorrelError (List (String × List ReturnPoint)) :=
  match ph with
  | [] => .ok []
  | (t, s) :: rest =>
    match compute_returns s rt with
    | .error e => .error e
    | .ok r =>
      match tickerReturns rest rt with
      | .error e => .error e
      | .ok others => .ok ((t, r) :: others)

/-- Lines 64-68 of analysis.py: the sorted list of dates present in every
ticker's return mapping (`set.intersection` of the key sets, then `sorted`).
The result has no duplicates and is ascending, exactly as Python's
`sorted(common_dates)` of a set. -/
def commonDates (tr : List (String × List ReturnPoint)) : List Nat :=
  match tr with
  | [] => []
  | (_, r) :: rest =>
    List.insertionSort (fun a b => a ≤ b)
      ((dictKeys r).filter (fun d => rest.all (fun p => (dictKeys p.2).contains d)))

/-- _align_returns from analysis.py lines 52-74.  Returns the sorted tickers
and the aligned matrix (rows = sorted common dates, columns = sorted tickers). -/
noncomputable def alignReturns (ph : PriceHistory) (rt : String) :
    Except CorrelError (List String × List (List ℝ)) :=
  match tickerReturns ph rt with
  | .error e => .error e
  | .ok tr =>
    let tickers := List.insertionSort strLe (tr.map Prod.fst)
    if tickers.length < 2 then
      .error (.invalidParameter msgFewTickers)
    else
      let dates := commonDates tr
      if dates.length < 2 then
        .error (.insufficientData msgFewDates)
      else
        .ok (tickers, dates.map (fun d => tickers.map (fun t => dictLookup (lookupTicker tr t) d)))

/-- Column i of the aligned matrix: `columns = list(zip(*matrix))` at line 89
(all rows have the same length, so zip truncation never applies). -/
def colOf (m : List (List ℝ)) (i : Nat) : List ℝ :=
  m.map (fun row => row.getD i 0)

/-- Entry matrix[k][i] of the aligned matrix, via total indexing with default 0
(indices are in range at every call site). -/
def entryOf (m : List (List ℝ)) (k i : Nat) : ℝ :=
  (m.getD k []).getD i 0

/-- Line 90 of analysis.py: `statistics.mean`, the arithmetic mean. -/
noncomputable def sampleMean (col : List ℝ) : ℝ :=
  col.sum / (col.length : ℝ)

/-- Lines 91-94 of analysis.py: sample standard deviation, the square root of
the sum of squared deviations from the mean divided by `n_observations - 1`
(an integer subtraction in the source, hence the ℤ cast). -/
noncomputable def sampleStdev (col : List ℝ) : ℝ :=
  Real.sqrt ((col.map (fun v => (v - sampleMean col) ^ 2)).sum / (((col.length : ℤ) - 1 : ℤ) : ℝ))

/-- Lines 109-111 of analysis.py: sample covariance of columns i and j of the
aligned matrix, summed over observation rows in index order. -/
noncomputable def covariance (m : List (List ℝ)) (i j : Nat) : ℝ :=
  ((List.range m.length).map (fun k =>
    (entryOf m k i - sampleMean (colOf m i)) * (entryOf m k j - sampleMean (colOf m j)))).sum
  / (((m.length : ℤ) - 1 : ℤ) : ℝ)

/-- Python `math.isclose(a, b)` with its default tolerances
(rel_tol = 1e-9, abs_tol = 0.0): |a-b| <= max(rel_tol * max(|a|,|b|), abs_tol). -/
def isclose (a b : ℝ) : Prop :=
  |a - b| ≤ max ((1 / 1000000000) * max |a| |b|) 0

noncomputable instance (a b : ℝ) : Decidable (isclose a b) :=
  inferInstanceAs (Decidable (_ ≤ _))

/-- Line 113 of analysis.py: `max(-1.0, min(1.0, correlation))`. -/
noncomputable def clamp1 (x : ℝ) : ℝ := max (-1) (min 1 x)

/-- Cell (i, j) of the correlation matrix, lines 100-113 of analysis.py. -/
noncomputable def correlCell (m : List (List ℝ)) (i j : Nat) : ℝ :=
  if i = j then 1
  else if isclose (sampleStdev (colOf m i)) 0 ∨ isclose (sampleStdev (colOf m j)) 0 then 0
  else clamp1 (covariance m i j / (sampleStdev (colOf m i) * sampleStdev (colOf m j)))

/-- CorrelationResult from analysis.py lines 16-20. -/
structure CorrelationResult where
  tickers : List String
  matrix : List (List ℝ)
  observation_count : Nat

/-- compute_correlation_matrix from analysis.py lines 77-116. -/
noncomputable def compute_correlation_matrix (ph : PriceHistory) (rt : String) :
    Except CorrelError CorrelationResult :=
  match alignReturns ph rt with
  | .error e => .error e
  | .ok (tickers, aligned) =>
    if aligned.length < 2 then
      .error (.insufficientData msgFewObs)
    else
      .ok ⟨tickers,
        (List.range tickers.length).map (fun i =>
          (List.range tickers.length).map (fun j => correlCell aligned i j)),
        aligned.length⟩

/-- Consecutive pairs of a list: the (previous, current) transitions the loop
of compute_returns walks. -/
def consecPairs {α : Type} : List α → List (α × α)
  | [] => []
  | [_] => []
  | a :: b :: rest => (a, b) :: consecPairs (b :: rest)

/-- Emission of one transition of the compute_returns loop: skipped when either
endpoint price is non-positive, otherwise a return point dated at the current
point. -/
noncomputable def emitReturn (rt : String) (p : PricePoint × PricePoint) : Option ReturnPoint :=
  if p.1.2 ≤ 0 ∨ p.2.2 ≤ 0 then none else some (p.2.1, returnValue rt p.1.2 p.2.2)

/-- Hex digit characters of Python %x formatting (lowercase). -/
def hexDigits : List Char := "0123456789abcdef".data

/-- Character of one hex digit; the default is never reached (arguments are
always of the form n / 16 or n % 16 with n < 256). -/
def hexDigit (n : Nat) : Char := hexDigits.getD n '0'

/-- Big-endian hex digits of a natural number.  Fuel-based encoding of the
repeated division by 16 of %x formatting; the digit count of n is at most
n + 1, so the fuel in toHexNat never runs out and the result equals the %x
digit string for every n. -/
def toHexAux : Nat → Nat → List Char
  | 0, _ => []
  | fuel + 1, n =>
    if n < 16 then [hexDigit n] else toHexAux fuel (n / 16) ++ [hexDigit (n % 16)]

/-- Hex digit string of a natural number (at least one digit). -/
def toHexNat (n : Nat) : List Char := toHexAux (n + 1) n

/-- Left zero-padding of %02x: minimum width two. -/
def padTwo (l : List Char) : List Char := if l.length < 2 then '0' :: l else l

/-- Python f-string piece "%02x" applied to an integer channel value.  The
negative case is never reached at the call sites (interpChannel_bounds). -/
def pyHex02 (n : ℤ) : String :=
  if n < 0 then "-" ++ String.mk (padTwo (toHexNat n.natAbs))
  else String.mk (padTwo (toHexNat n.toNat))

/-- Python int(): truncation toward zero. -/
noncomputable def pyInt (x : ℝ) : ℤ := if 0 ≤ x then ⌊x⌋ else -⌊-x⌋

/-- NEGATIVE_COLOUR from visualization.py line 7 (deep blue). -/
def NEGATIVE_COLOUR : ℤ × ℤ × ℤ := (33, 102, 172)

/-- NEUTRAL_COLOUR from visualization.py line 8 (light grey). -/
def NEUTRAL_COLOUR : ℤ × ℤ × ℤ := (247, 247, 247)

/-- POSITIVE_COLOUR from visualization.py line 9 (deep red). -/
def POSITIVE_COLOUR : ℤ × ℤ × ℤ := (178, 24, 43)

/-- Channel computation of _interpolate_colour, lines 14-16 of
visualization.py: int(start + (end - start) * fraction + 0.5). -/
noncomputable def interpChannel (s e2 : ℤ) (f : ℝ) : ℤ :=
  pyInt ((s : ℝ) + ((e2 : ℝ) - (s : ℝ)) * f + 1 / 2)

/-- _interpolate_colour from visualization.py lines 12-17 (the fraction is
clamped to [0, 1] at line 13; "end" is renamed "stop", a reserved word). -/
noncomputable def interpolate_colour (start stop : ℤ × ℤ × ℤ) (f : ℝ) : String :=
  "#" ++ pyHex02 (interpChannel start.1 stop.1 (max 0 (min 1 f)))
      ++ pyHex02 (interpChannel start.2.1 stop.2.1 (max 0 (min 1 f)))
      ++ pyHex02 (interpChannel start.2.2 stop.2.2 (max 0 (min 1 f)))

/-- correlation_to_hex from visualization.py lines 20-26. -/
noncomputable def correlation_to_hex (v : ℝ) : String :=
  if 0 ≤ max (-1) (min 1 v) then
    interpolate_colour NEUTRAL_COLOUR POSITIVE_COLOUR (max (-1) (min 1 v))
  else
    interpolate_colour NEGATIVE_COLOUR NEUTRAL_COLOUR (1 + max (-1) (min 1 v))

/-- Channel triple whose components are all bytes, as the three anchor
colours are. -/
def byteTriple (c : ℤ × ℤ × ℤ) : Prop :=
  0 ≤ c.1 ∧ c.1 ≤ 255 ∧ 0 ≤ c.2.1 ∧ c.2.1 ≤ 255 ∧ 0 ≤ c.2.2 ∧ c.2.2 ≤ 255

/-- Shape required by the spec pattern for colour strings: a hash sign
followed by exactly six lowercase hex digit characters. -/
def matchesHexPattern (str : String) : Prop :=
  ∃ l, str.data = '#' :: l ∧ l.length = 6 ∧ ∀ c ∈ l, c ∈ hexDigits

/-- Concrete two-ticker history used to witness the correlation-engine
claims ("pct" mode keeps every value rational). -/
def exampleHistory : PriceHistory :=
  [("A", [(0, 1), (1, 2), (2, 4)]), ("B", [(0, 1), (1, 3), (2, 9)])]

/-- Per-ticker returns of exampleHistory in "pct" mode. -/
def exampleTR : List (String × List ReturnPoint) :=
  [("A", [(1, 1), (2, 1)]), ("B", [(1, 2), (2, 2)])]

/-- Aligned return matrix of exampleHistory in "pct" mode. -/
def exampleAligned : List (List ℝ) := [[1, 2], [1, 2]]

/-- Correlation result of exampleHistory in "pct" mode: both return columns
are constant, so both standard deviations are zero and the off-diagonal cells
take the degenerate 0.0 branch. -/
def exampleResult : CorrelationResult :=
  ⟨["A", "B"], [[1, 0], [0, 1]], 2⟩

theorem returnsLoop_eq_filterMap (rt : String) (first : PricePoint) (rest : List PricePoint) :
    returnsLoop rt first rest = (consecPairs (first :: rest)).filterMap (emitReturn rt) := by
  induction rest generalizing first with
  | nil => simp [returnsLoop, consecPairs]
  | cons b rest ih =>
    by_cases h : first.2 ≤ 0 ∨ b.2 ≤ 0
    · simp [returnsLoop, consecPairs, emitReturn, h, ih b]
    · simp [returnsLoop, consecPairs, emitReturn, h, ih b]

theorem returnsLoopAll_eq_filterMap (rt : String) (l : List PricePoint) :
    returnsLoopAll rt l = (consecPairs l).filterMap (emitReturn rt) := by
  cases l with
  | nil => simp [returnsLoopAll, consecPairs]
  | cons a l => exact returnsLoop_eq_filterMap rt a l

theorem compute_returns_short (series : List PricePoint) (rt : String)
    (h : series.length < 2) :
    compute_returns series rt = .error (.insufficientData msgTooShort) := by
  simp [compute_returns, h, msgTooShort]

theorem compute_returns_badType (series : List PricePoint) (rt : String)
    (h2 : 2 ≤ series.length) (ha : rt ≠ "log") (hb : rt ≠ "pct") :
    compute_returns series rt = .error (.invalidParameter msgBadType) := by
  simp [compute_returns, Nat.not_lt.2 h2, ha, hb, msgBadType]

theorem compute_returns_noValid (series : List PricePoint) (rt : String)
    (h2 : 2 ≤ series.length) (hrt : rt = "log" ∨ rt = "pct")
    (hall : ∀ p ∈ consecPairs (sortByDate series), p.1.2 ≤ 0 ∨ p.2.2 ≤ 0) :
    compute_returns series rt = .error (.insufficientData msgNoValid) := by
  have hempty : returnsLoopAll rt (sortByDate series) = [] := by
    rw [returnsLoopAll_eq_filterMap, List.filterMap_eq_nil_iff]
    intro p hp
    simp [emitReturn, hall p hp]
  simp [compute_returns, Nat.not_lt.2 h2, hrt, hempty]

theorem compute_returns_ok (series : List PricePoint) (rt : String)
    (h2 : 2 ≤ series.length) (hrt : rt = "log" ∨ rt = "pct")
    (hsome : ∃ p ∈ consecPairs (sortByDate series), 0 < p.1.2 ∧ 0 < p.2.2) :
    compute_returns series rt = .ok (returnsLoopAll rt (sortByDate series)) ∧
      returnsLoopAll rt (sortByDate series) ≠ [] := by
  obtain ⟨p, hp, hp1, hp2⟩ := hsome
  have hne : returnsLoopAll rt (sortByDate series) ≠ [] := by
    rw [returnsLoopAll_eq_filterMap]
    intro hnil
    rw [List.filterMap_eq_nil_iff] at hnil
    have := hnil p hp
    simp [emitReturn, not_le.2 hp1, not_le.2 hp2] at this
  constructor
  · simp [compute_returns, Nat.not_lt.2 h2, hrt, List.isEmpty_iff, hne]
  · exact hne

/-- C2: for every two-point price series [(d0, p0), (d1, p1)] with d0 < d1 and
p0 > 0 and p1 > 0, compute_returns with return_type "log" returns the single
return point (d1, ln(p1/p0)), and with return_type "pct" the single return
point (d1, (p1-p0)/p0). -/
theorem claim_C2 (d0 d1 : Nat) (p0 p1 : ℝ) (hd : d0 < d1) (h0 : 0 < p0) (h1 : 0 < p1) :
    compute_returns [(d0, p0), (d1, p1)] "log" = .ok [(d1, Real.log (p1 / p0))] ∧
    compute_returns [(d0, p0), (d1, p1)] "pct" = .ok [(d1, (p1 - p0) / p0)] := by
  have hsort : sortByDate [(d0, p0), (d1, p1)] = [(d0, p0), (d1, p1)] := by
    simp [sortByDate, List.insertionSort, List.orderedInsert, le_of_lt hd]
  constructor <;>
    simp [compute_returns, hsort, returnsLoopAll, returnsLoop, returnValue,
      not_le.2 h0, not_le.2 h1]

theorem claim_C2_witness :
    (0 : Nat) < 1 ∧ (0 : ℝ) < 1 ∧ (0 : ℝ) < 2 ∧
    compute_returns [(0, 1), (1, 2)] "log" = .ok [(1, Real.log ((2 : ℝ) / 1))] ∧
    compute_returns [(0, 1), (1, 2)] "pct" = .ok [(1, ((2 : ℝ) - 1) / 1)] :=
  ⟨by decide, by norm_num, by norm_num,
    (claim_C2 0 1 1 2 (by decide) (by norm_num) (by norm_num)).1,
    (claim_C2 0 1 1 2 (by decide) (by norm_num) (by norm_num)).2⟩

/-- C3: compute_returns fails exactly when the input series has fewer than 2
points (InsufficientData), or return_type is not "log"/"pct"
(InvalidParameter), or after sorting every consecutive pair has a non-positive
endpoint so zero valid transitions remain (InsufficientData); on every other
input it succeeds. -/
theorem claim_C3 (series : List PricePoint) (rt : String) :
    (series.length < 2 →
      compute_returns series rt = .error (.insufficientData msgTooShort)) ∧
    (2 ≤ series.length → ¬(rt = "log" ∨ rt = "pct") →
      compute_returns series rt = .error (.invalidParameter msgBadType)) ∧
    (2 ≤ series.length → (rt = "log" ∨ rt = "pct") →
      (∀ p ∈ consecPairs (sortByDate series), p.1.2 ≤ 0 ∨ p.2.2 ≤ 0) →
      compute_returns series rt = .error (.insufficientData msgNoValid)) ∧
    (2 ≤ series.length → (rt = "log" ∨ rt = "pct") →
      (∃ p ∈ consecPairs (sortByDate series), 0 < p.1.2 ∧ 0 < p.2.2) →
      ∃ out, compute_returns series rt = .ok out) :=
  ⟨fun h => compute_returns_short series rt h,
    fun h2 hbad => compute_returns_badType series rt h2
      (fun h => hbad (Or.inl h)) (fun h => hbad (Or.inr h)),
    fun h2 hrt hall => compute_returns_noValid series rt h2 hrt hall,
    fun h2 hrt hsome => ⟨_, (compute_returns_ok series rt h2 hrt hsome).1⟩⟩

theorem claim_C3_witness :
    compute_returns ([] : List PricePoint) "log" = .error (.insufficientData msgTooShort) ∧
    compute_returns [((0 : Nat), (1 : ℝ)), (1, 2)] "zzz" = .error (.invalidParameter msgBadType) ∧
    compute_returns [((0 : Nat), (0 : ℝ)), (1, 2)] "log" = .error (.insufficientData msgNoValid) ∧
    ∃ out, compute_returns [((0 : Nat), (1 : ℝ)), (1, 2)] "log" = .ok out := by
  have hs1 : sortByDate [((0 : Nat), (0 : ℝ)), (1, 2)] = [(0, 0), (1, 2)] := by
    simp [sortByDate, List.insertionSort, List.orderedInsert]
  have hs2 : sortByDate [((0 : Nat), (1 : ℝ)), (1, 2)] = [(0, 1), (1, 2)] := by
    simp [sortByDate, List.insertionSort, List.orderedInsert]
  refine ⟨(claim_C3 [] "log").1 (by simp),
    (claim_C3 _ "zzz").2.1 (by simp) (by decide),
    (claim_C3 _ "log").2.2.1 (by simp) (Or.inl rfl) ?_,
    (claim_C3 _ "log").2.2.2 (by simp) (Or.inl rfl) ?_⟩
  · intro p hp
    rw [hs1] at hp
    simp [consecPairs] at hp
    rw [hp]
    norm_num
  · refine ⟨((0, 1), (1, 2)), ?_, by norm_num, by norm_num⟩
    rw [hs2]
    simp [consecPairs]

/-- C4: in compute_returns the "previous" baseline always advances, so whether
a transition is emitted depends only on the consecutive pair of the sorted
series (a skipped point is still the next transition's baseline); and the
series [100.0, 0.0, 120.0] on three distinct dates has both transitions
skipped, so compute_returns fails with an InsufficientData error. -/
theorem claim_C4 :
    (∀ (rt : String) (l : List PricePoint),
      returnsLoopAll rt l = (consecPairs l).filterMap (emitReturn rt)) ∧
    compute_returns [((0 : Nat), (100 : ℝ)), (1, 0), (2, 120)] "log" =
      .error (.insufficientData msgNoValid) := by
  refine ⟨returnsLoopAll_eq_filterMap, ?_⟩
  apply compute_returns_noValid _ _ (by simp) (Or.inl rfl)
  intro p hp
  have hs : sortByDate [((0 : Nat), (100 : ℝ)), (1, 0), (2, 120)] = [(0, 100), (1, 0), (2, 120)] := by
    simp [sortByDate, List.insertionSort, List.orderedInsert]
  rw [hs] at hp
  simp [consecPairs] at hp
  rcases hp with h | h <;> rw [h] <;> norm_num

/-- C9: the length precondition is checked before the return_type
precondition: a series with fewer than 2 points and an unrecognized
return_type fails with the InsufficientData (too few observations) error, not
the InvalidParameter (bad return-type) error. -/
theorem claim_C9 (series : List PricePoint) (rt : String)
    (hlen : series.length < 2) (ha : rt ≠ "log") (hb : rt ≠ "pct") :
    compute_returns series rt = .error (.insufficientData msgTooShort) ∧
    ∀ m, compute_returns series rt ≠ .error (.invalidParameter m) := by
  have h := compute_returns_short series rt hlen
  exact ⟨h, fun m hc => by rw [h] at hc; exact absurd hc (by simp)⟩

theorem claim_C9_witness :
    compute_returns ([] : List PricePoint) "zzz" = .error (.insufficientData msgTooShort) ∧
    ∀ m, compute_returns ([] : List PricePoint) "zzz" ≠ .error (.invalidParameter m) :=
  claim_C9 [] "zzz" (by decide) (by decide) (by decide)

theorem tickerReturns_ok_keys (ph : PriceHistory) (rt : String)
    (tr : List (String × List ReturnPoint)) (h : tickerReturns ph rt = .ok tr) :
    tr.map Prod.fst = ph.map Prod.fst := by
  induction ph generalizing tr with
  | nil => simp [tickerReturns] at h; simp [← h]
  | cons p rest ih =>
    obtain ⟨t, s⟩ := p
    rw [tickerReturns] at h
    cases hc : compute_returns s rt with
    | error e => rw [hc] at h; exact absurd h (by simp)
    | ok r =>
      rw [hc] at h
      cases ht : tickerReturns rest rt with
      | error e => rw [ht] at h; exact absurd h (by simp)
      | ok others =>
        rw [ht] at h
        simp only [Except.ok.injEq] at h
        subst h
        simp [ih others ht]

theorem tickerReturns_error_of_mem (ph : PriceHistory) (rt : String)
    (t : String) (s : List PricePoint) (e : CorrelError)
    (hmem : (t, s) ∈ ph) (hf : compute_returns s rt = .error e) :
    ∃ e2, tickerReturns ph rt = .error e2 := by
  induction ph with
  | nil => simp at hmem
  | cons p rest ih =>
    obtain ⟨t', s'⟩ := p
    cases hc : compute_returns s' rt with
    | error e' => exact ⟨e', by rw [tickerReturns, hc]⟩
    | ok r =>
      rcases List.mem_cons.1 hmem with hh | hh
      · rw [Prod.mk.injEq] at hh
        rw [hh.2] at hf
        rw [hf] at hc
        exact absurd hc (by simp)
      · obtain ⟨e2, h2⟩ := ih hh
        exact ⟨e2, by rw [tickerReturns, hc, h2]⟩

theorem alignReturns_ok_elim (ph : PriceHistory) (rt : String)
    (tickers : List String) (aligned : List (List ℝ))
    (h : alignReturns ph rt = .ok (tickers, aligned)) :
    ∃ tr, tickerReturns ph rt = .ok tr ∧
      tickers = List.insertionSort strLe (tr.map Prod.fst) ∧
      2 ≤ tickers.length ∧ 2 ≤ (commonDates tr).length ∧
      aligned = (commonDates tr).map
        (fun d => tickers.map (fun t => dictLookup (lookupTicker tr t) d)) := by
  rw [alignReturns] at h
  cases ht : tickerReturns ph rt with
  | error e => rw [ht] at h; exact absurd h (by simp)
  | ok tr =>
    rw [ht] at h
    simp only at h
    by_cases h1 : (List.insertionSort strLe (tr.map Prod.fst)).length < 2
    · rw [if_pos h1] at h
      exact absurd h (by simp)
    · rw [if_neg h1] at h
      by_cases h2 : (commonDates tr).length < 2
      · rw [if_pos h2] at h
        exact absurd h (by simp)
      · rw [if_neg h2] at h
        have hp := Except.ok.inj h
        rw [Prod.mk.injEq] at hp
        obtain ⟨hA, hB⟩ := hp
        subst hA
        subst hB
        exact ⟨tr, rfl, rfl, Nat.not_lt.1 h1, Nat.not_lt.1 h2, rfl⟩

theorem compute_correlation_matrix_ok_elim (ph : PriceHistory) (rt : String)
    (res : CorrelationResult) (h : compute_correlation_matrix ph rt = .ok res) :
    ∃ tickers aligned, alignReturns ph rt = .ok (tickers, aligned) ∧
      2 ≤ aligned.length ∧
      res = ⟨tickers,
        (List.range tickers.length).map (fun i =>
          (List.range tickers.length).map (fun j => correlCell aligned i j)),
        aligned.length⟩ := by
  rw [compute_correlation_matrix] at h
  cases ha : alignReturns ph rt with
  | error e => rw [ha] at h; exact absurd h (by simp)
  | ok pair =>
    obtain ⟨tickers, aligned⟩ := pair
    rw [ha] at h
    simp only at h
    by_cases h1 : aligned.length < 2
    · rw [if_pos h1] at h
      exact absurd h (by simp)
    · rw [if_neg h1] at h
      exact ⟨tickers, aligned, rfl, Nat.not_lt.1 h1, (Except.ok.inj h).symm⟩

theorem rangeMap_getD {α : Type} (n i : Nat) (f : Nat → α) (d : α) :
    ((List.range n).map f).getD i d = if i < n then f i else d := by
  rw [List.getD_eq_getElem?_getD, List.getElem?_map]
  split
  · rw [List.getElem?_range (by assumption)]; rfl
  · rw [List.getElem?_eq_none (by simpa using Nat.not_lt.1 (by assumption))]; rfl

theorem matrix_entry (n : Nat) (cell : Nat → Nat → ℝ) (i j : Nat) :
    entryOf ((List.range n).map (fun i => (List.range n).map (fun j => cell i j))) i j
      = if i < n ∧ j < n then cell i j else 0 := by
  rw [entryOf, rangeMap_getD]
  by_cases hi : i < n
  · rw [if_pos hi, rangeMap_getD]
    by_cases hj : j < n
    · rw [if_pos hj, if_pos ⟨hi, hj⟩]
    · rw [if_neg hj, if_neg (fun hc => hj hc.2)]
  · rw [if_neg hi, if_neg (fun hc => hi hc.1)]
    rfl

theorem correlCell_diag (m : List (List ℝ)) (i : Nat) : correlCell m i i = 1 := by
  rw [correlCell, if_pos rfl]

theorem correlCell_bounds (m : List (List ℝ)) (i j : Nat) :
    -1 ≤ correlCell m i j ∧ correlCell m i j ≤ 1 := by
  rw [correlCell]
  split_ifs
  · norm_num
  · norm_num
  · constructor
    · exact le_max_left _ _
    · exact max_le (by norm_num) (min_le_left _ _)

theorem covariance_symm (m : List (List ℝ)) (i j : Nat) :
    covariance m i j = covariance m j i := by
  rw [covariance, covariance]
  congr 1
  congr 1
  exact List.map_congr_left (fun k _ => by ring)

theorem correlCell_symm (m : List (List ℝ)) (i j : Nat) :
    correlCell m i j = correlCell m j i := by
  by_cases hij : i = j
  · rw [hij]
  · rw [correlCell, correlCell, if_neg hij, if_neg (Ne.symm hij), covariance_symm,
      mul_comm (sampleStdev (colOf m i)), if_congr (or_comm) rfl rfl]

theorem evalReturnsA :
    compute_returns [((0 : Nat), (1 : ℝ)), (1, 2), (2, 4)] "pct" = .ok [(1, 1), (2, 1)] := by
  have hne : ("pct" : String) ≠ "log" := by decide
  have hs : sortByDate [((0 : Nat), (1 : ℝ)), (1, 2), (2, 4)] = [(0, 1), (1, 2), (2, 4)] := by
    simp [sortByDate, List.insertionSort, List.orderedInsert]
  rw [compute_returns]
  norm_num [hs, returnsLoopAll, returnsLoop, returnValue, hne]

theorem evalReturnsB :
    compute_returns [((0 : Nat), (1 : ℝ)), (1, 3), (2, 9)] "pct" = .ok [(1, 2), (2, 2)] := by
  have hne : ("pct" : String) ≠ "log" := by decide
  have hs : sortByDate [((0 : Nat), (1 : ℝ)), (1, 3), (2, 9)] = [(0, 1), (1, 3), (2, 9)] := by
    simp [sortByDate, List.insertionSort, List.orderedInsert]
  rw [compute_returns]
  norm_num [hs, returnsLoopAll, returnsLoop, returnValue, hne]

theorem evalTR : tickerReturns exampleHistory "pct" = .ok exampleTR := by
  rw [exampleHistory, exampleTR]
  simp only [tickerReturns, evalReturnsA, evalReturnsB]

theorem evalCommon : commonDates exampleTR = [1, 2] := by
  rw [exampleTR]
  simp [commonDates, dictKeys, List.insertionSort, List.orderedInsert]

theorem evalAlign :
    alignReturns exampleHistory "pct" = .ok (["A", "B"], exampleAligned) := by
  have hAB : strLe "A" "B" := by decide
  have hmap : exampleTR.map Prod.fst = ["A", "B"] := by simp [exampleTR]
  rw [alignReturns, evalTR]
  simp only [hmap]
  simp only [List.insertionSort, List.orderedInsert, hAB, if_true]
  rw [if_neg (by simp), evalCommon, if_neg (by simp)]
  simp [exampleAligned, dictLookup, lookupTicker, exampleTR]

theorem evalStdevCol0 : sampleStdev (colOf exampleAligned 0) = 0 := by
  have hc : colOf exampleAligned 0 = [1, 1] := by
    simp [colOf, exampleAligned]
  rw [hc]
  norm_num [sampleStdev, sampleMean, Real.sqrt_zero]

theorem evalStdevCol1 : sampleStdev (colOf exampleAligned 1) = 0 := by
  have hc : colOf exampleAligned 1 = [2, 2] := by
    simp [colOf, exampleAligned]
  rw [hc]
  norm_num [sampleStdev, sampleMean, Real.sqrt_zero]

theorem isclose_zero_zero : isclose 0 0 := by norm_num [isclose]

theorem evalCell01 : correlCell exampleAligned 0 1 = 0 := by
  rw [correlCell, if_neg (by decide : ¬((0 : Nat) = 1)),
    if_pos (Or.inl (by rw [evalStdevCol0]; exact isclose_zero_zero))]

theorem evalCell10 : correlCell exampleAligned 1 0 = 0 := by
  rw [correlCell, if_neg (by decide : ¬((1 : Nat) = 0)),
    if_pos (Or.inr (by rw [evalStdevCol0]; exact isclose_zero_zero))]

theorem evalCCM : compute_correlation_matrix exampleHistory "pct" = .ok exampleResult := by
  have hlen : exampleAligned.length = 2 := by simp [exampleAligned]
  rw [compute_correlation_matrix, evalAlign]
  simp only [hlen]
  rw [if_neg (by norm_num)]
  simp [exampleResult, List.range_succ, correlCell_diag, evalCell01, evalCell10]

theorem exampleKeysNodup : (exampleHistory.map Prod.fst).Nodup := by
  have h : exampleHistory.map Prod.fst = ["A", "B"] := by simp [exampleHistory]
  rw [h]
  decide

theorem ccm_error_fewTickers (ph : PriceHistory) (rt : String)
    (tr : List (String × List ReturnPoint))
    (htr : tickerReturns ph rt = .ok tr) (hlt : tr.length < 2) :
    compute_correlation_matrix ph rt = .error (.invalidParameter msgFewTickers) := by
  rw [compute_correlation_matrix, alignReturns, htr]
  simp only
  rw [if_pos (by rw [List.length_insertionSort, List.length_map]; exact hlt)]

theorem ccm_error_fewDates (ph : PriceHistory) (rt : String)
    (tr : List (String × List ReturnPoint))
    (htr : tickerReturns ph rt = .ok tr) (hge : 2 ≤ tr.length)
    (hlt : (commonDates tr).length < 2) :
    compute_correlation_matrix ph rt = .error (.insufficientData msgFewDates) := by
  rw [compute_correlation_matrix, alignReturns, htr]
  simp only
  rw [if_neg (by rw [List.length_insertionSort, List.length_map]; exact Nat.not_lt.2 hge),
    if_pos hlt]

theorem ccm_error_of_returns (ph : PriceHistory) (rt : String)
    (t : String) (s : List PricePoint) (e : CorrelError)
    (hmem : (t, s) ∈ ph) (hf : compute_returns s rt = .error e) :
    ∃ e2, compute_correlation_matrix ph rt = .error e2 := by
  obtain ⟨e2, htr⟩ := tickerReturns_error_of_mem ph rt t s e hmem hf
  exact ⟨e2, by rw [compute_correlation_matrix, alignReturns, htr]⟩

theorem tickerReturns_single (t : String) (s : List PricePoint) (rt : String)
    (r : List ReturnPoint) (h : compute_returns s rt = .ok r) :
    tickerReturns [(t, s)] rt = .ok [(t, r)] := by
  simp [tickerReturns, h]

theorem tickerReturns_pair (t1 t2 : String) (s1 s2 : List PricePoint) (rt : String)
    (r1 r2 : List ReturnPoint)
    (h1 : compute_returns s1 rt = .ok r1) (h2 : compute_returns s2 rt = .ok r2) :
    tickerReturns [(t1, s1), (t2, s2)] rt = .ok [(t1, r1), (t2, r2)] := by
  simp [tickerReturns, h1, h2]

/-- C1: for every input on which compute_correlation_matrix succeeds (the
input being a dict, its keys are pairwise distinct), the CorrelationResult has
its tickers sorted lexicographically ascending and deduplicated, a square
matrix whose side equals the number of tickers, every diagonal entry equal to
1.0, every entry in [-1.0, 1.0], and observation_count equal to the number of
dates common to all input tickers' return mappings. -/
theorem claim_C1 (ph : PriceHistory) (rt : String) (res : CorrelationResult)
    (hnodup : (ph.map Prod.fst).Nodup)
    (hok : compute_correlation_matrix ph rt = .ok res) :
    res.tickers.Sorted strLe ∧ res.tickers.Nodup ∧
    res.matrix.length = res.tickers.length ∧
    (∀ row ∈ res.matrix, row.length = res.tickers.length) ∧
    (∀ i, i < res.tickers.length → entryOf res.matrix i i = 1) ∧
    (∀ row ∈ res.matrix, ∀ x ∈ row, -1 ≤ x ∧ x ≤ 1) ∧
    (∃ tr, tickerReturns ph rt = .ok tr ∧
      res.observation_count = (commonDates tr).length) := by
  obtain ⟨tickers, aligned, halign, hlen2, hres⟩ :=
    compute_correlation_matrix_ok_elim ph rt res hok
  obtain ⟨tr, htr, htick, _, hdates2, haligned⟩ :=
    alignReturns_ok_elim ph rt tickers aligned halign
  subst hres
  refine ⟨?_, ?_, ?_, ?_, ?_, ?_, tr, htr, ?_⟩
  · rw [htick]
    exact List.sorted_insertionSort strLe _
  · have hkeys : (tr.map Prod.fst).Nodup := by
      rw [tickerReturns_ok_keys ph rt tr htr]
      exact hnodup
    rw [htick]
    exact ((List.perm_insertionSort strLe (tr.map Prod.fst)).symm).nodup hkeys
  · simp
  · intro row hrow
    simp only [List.mem_map] at hrow
    obtain ⟨i, _, hrow⟩ := hrow
    rw [← hrow]
    simp
  · intro i hi
    simp only at hi
    rw [matrix_entry, if_pos ⟨hi, hi⟩, correlCell_diag]
  · intro row hrow x hx
    simp only [List.mem_map] at hrow
    obtain ⟨i, _, hrow⟩ := hrow
    rw [← hrow] at hx
    simp only [List.mem_map] at hx
    obtain ⟨j, _, hx⟩ := hx
    rw [← hx]
    exact correlCell_bounds aligned i j
  · rw [haligned]
    simp

theorem claim_C1_witness :
    (exampleHistory.map Prod.fst).Nodup ∧
    (exampleResult.tickers.Sorted strLe ∧ exampleResult.tickers.Nodup ∧
    exampleResult.matrix.length = exampleResult.tickers.length ∧
    (∀ row ∈ exampleResult.matrix, row.length = exampleResult.tickers.length) ∧
    (∀ i, i < exampleResult.tickers.length → entryOf exampleResult.matrix i i = 1) ∧
    (∀ row ∈ exampleResult.matrix, ∀ x ∈ row, -1 ≤ x ∧ x ≤ 1) ∧
    (∃ tr, tickerReturns exampleHistory "pct" = .ok tr ∧
      exampleResult.observation_count = (commonDates tr).length)) :=
  ⟨exampleKeysNodup, claim_C1 exampleHistory "pct" exampleResult exampleKeysNodup evalCCM⟩

/-- C5: compute_correlation_matrix fails with InvalidParameter when fewer than
2 tickers remain after the per-ticker returns were computed, fails with
InsufficientData when fewer than 2 dates are common to all tickers' return
mappings, and propagates any single ticker's compute_returns failure as a
fatal error for the whole call (no partial result). -/
theorem claim_C5 (ph : PriceHistory) (rt : String) :
    (∀ tr, tickerReturns ph rt = .ok tr → tr.length < 2 →
      compute_correlation_matrix ph rt = .error (.invalidParameter msgFewTickers)) ∧
    (∀ tr, tickerReturns ph rt = .ok tr → 2 ≤ tr.length → (commonDates tr).length < 2 →
      compute_correlation_matrix ph rt = .error (.insufficientData msgFewDates)) ∧
    (∀ t s e, (t, s) ∈ ph → compute_returns s rt = .error e →
      ∃ e2, compute_correlation_matrix ph rt = .error e2) :=
  ⟨fun tr htr hlt => ccm_error_fewTickers ph rt tr htr hlt,
    fun tr htr hge hlt => ccm_error_fewDates ph rt tr htr hge hlt,
    fun t s e hmem hf => ccm_error_of_returns ph rt t s e hmem hf⟩

theorem evalReturnsTwo :
    compute_returns [((0 : Nat), (1 : ℝ)), (1, 2)] "pct" = .ok [(1, 1)] := by
  have hne : ("pct" : String) ≠ "log" := by decide
  have hs : sortByDate [((0 : Nat), (1 : ℝ)), (1, 2)] = [(0, 1), (1, 2)] := by
    simp [sortByDate, List.insertionSort, List.orderedInsert]
  rw [compute_returns]
  norm_num [hs, returnsLoopAll, returnsLoop, returnValue, hne]

theorem evalReturnsLate :
    compute_returns [((5 : Nat), (1 : ℝ)), (6, 2)] "pct" = .ok [(6, 1)] := by
  have hne : ("pct" : String) ≠ "log" := by decide
  have hs : sortByDate [((5 : Nat), (1 : ℝ)), (6, 2)] = [(5, 1), (6, 2)] := by
    simp [sortByDate, List.insertionSort, List.orderedInsert]
  rw [compute_returns]
  norm_num [hs, returnsLoopAll, returnsLoop, returnValue, hne]

theorem evalCommonDisjoint :
    commonDates [("A", [((1 : Nat), (1 : ℝ))]), ("B", [((6 : Nat), (1 : ℝ))])] = [] := by
  simp [commonDates, dictKeys, List.insertionSort]

theorem claim_C5_witness :
    compute_correlation_matrix [("C", [((0 : Nat), (1 : ℝ)), (1, 2)])] "pct"
      = .error (.invalidParameter msgFewTickers) ∧
    compute_correlation_matrix
        [("A", [((0 : Nat), (1 : ℝ)), (1, 2)]), ("B", [((5 : Nat), (1 : ℝ)), (6, 2)])] "pct"
      = .error (.insufficientData msgFewDates) ∧
    ∃ e2, compute_correlation_matrix [("A", ([] : List PricePoint))] "pct" = .error e2 := by
  refine ⟨(claim_C5 _ "pct").1 [("C", [(1, 1)])]
      (tickerReturns_single "C" _ "pct" _ evalReturnsTwo) (by decide), ?_, ?_⟩
  · refine (claim_C5 _ "pct").2.1 [("A", [(1, 1)]), ("B", [(6, 1)])]
      (tickerReturns_pair "A" "B" _ _ "pct" _ _ evalReturnsTwo evalReturnsLate)
      (by decide) ?_
    rw [evalCommonDisjoint]
    decide
  · exact (claim_C5 _ "pct").2.2 "A" [] (.insufficientData msgTooShort)
      (List.mem_singleton.2 rfl) (compute_returns_short [] "pct" (by simp))

/-- C6: every off-diagonal cell (i, j) of a successful
compute_correlation_matrix call equals 0.0 when either aligned column's sample
standard deviation is close to 0 under math.isclose's default tolerances, and
otherwise equals the sample covariance divided by the product of the two
standard deviations, clamped to [-1.0, 1.0]. -/
theorem claim_C6 (ph : PriceHistory) (rt : String) (res : CorrelationResult)
    (hok : compute_correlation_matrix ph rt = .ok res) (i j : Nat)
    (hi : i < res.tickers.length) (hj : j < res.tickers.length) (hij : i ≠ j) :
    ∃ tickers aligned, alignReturns ph rt = .ok (tickers, aligned) ∧
      entryOf res.matrix i j =
        (if isclose (sampleStdev (colOf aligned i)) 0 ∨
            isclose (sampleStdev (colOf aligned j)) 0
         then 0
         else clamp1 (covariance aligned i j /
           (sampleStdev (colOf aligned i) * sampleStdev (colOf aligned j)))) := by
  obtain ⟨tickers, aligned, halign, _, hres⟩ :=
    compute_correlation_matrix_ok_elim ph rt res hok
  subst hres
  simp only at hi hj
  refine ⟨tickers, aligned, halign, ?_⟩
  rw [matrix_entry, if_pos ⟨hi, hj⟩, correlCell, if_neg hij]

theorem claim_C6_witness :
    ∃ tickers aligned, alignReturns exampleHistory "pct" = .ok (tickers, aligned) ∧
      entryOf exampleResult.matrix 0 1 =
        (if isclose (sampleStdev (colOf aligned 0)) 0 ∨
            isclose (sampleStdev (colOf aligned 1)) 0
         then 0
         else clamp1 (covariance aligned 0 1 /
           (sampleStdev (colOf aligned 0) * sampleStdev (colOf aligned 1)))) :=
  claim_C6 exampleHistory "pct" exampleResult evalCCM 0 1
    (by decide) (by decide) (by decide)

/-- C8 counterexample: a single-ticker history whose series is empty fails
with the InsufficientData (too few observations) error, not InvalidParameter,
because the per-ticker return computation fails before the ticker count is
checked. -/
theorem claim_C8_counterexample :
    compute_correlation_matrix [("A", ([] : List PricePoint))] "log"
      = .error (.insufficientData msgTooShort) ∧
    ∀ m, compute_correlation_matrix [("A", ([] : List PricePoint))] "log"
      ≠ .error (.invalidParameter m) := by
  have htr : tickerReturns [("A", ([] : List PricePoint))] "log"
      = .error (.insufficientData msgTooShort) := by
    simp [tickerReturns, compute_returns_short ([] : List PricePoint) "log" (by simp)]
  have h : compute_correlation_matrix [("A", ([] : List PricePoint))] "log"
      = .error (.insufficientData msgTooShort) := by
    rw [compute_correlation_matrix, alignReturns, htr]
  exact ⟨h, fun m hc => by rw [h] at hc; exact absurd hc (by simp)⟩

/-- C8 (amended): a price history containing exactly one ticker whose return
computation succeeds fails with an InvalidParameter error. -/
theorem claim_C8 (t : String) (s : List PricePoint) (rt : String) (r : List ReturnPoint)
    (hok : compute_returns s rt = .ok r) :
    compute_correlation_matrix [(t, s)] rt = .error (.invalidParameter msgFewTickers) :=
  ccm_error_fewTickers [(t, s)] rt [(t, r)] (tickerReturns_single t s rt r hok)
    (by simp)

theorem claim_C8_witness :
    compute_correlation_matrix [("A", [((0 : Nat), (1 : ℝ)), (1, 2)])] "pct"
      = .error (.invalidParameter msgFewTickers) :=
  claim_C8 "A" [((0 : Nat), (1 : ℝ)), (1, 2)] "pct" [(1, 1)] evalReturnsTwo

/-- C10: the matrix of every successful compute_correlation_matrix call is
exactly symmetric, because each cell's covariance summands and
standard-deviation product are symmetric in i and j and the sum runs over the
same observation order for both cells. -/
theorem claim_C10 (ph : PriceHistory) (rt : String) (res : CorrelationResult)
    (hok : compute_correlation_matrix ph rt = .ok res) (i j : Nat) :
    entryOf res.matrix i j = entryOf res.matrix j i := by
  obtain ⟨tickers, aligned, _, _, hres⟩ :=
    compute_correlation_matrix_ok_elim ph rt res hok
  subst hres
  simp only
  rw [matrix_entry, matrix_entry]
  by_cases hi : i < tickers.length <;> by_cases hj : j < tickers.length
  · rw [if_pos ⟨hi, hj⟩, if_pos ⟨hj, hi⟩]
    exact correlCell_symm aligned i j
  · rw [if_neg (fun hc => hj hc.2), if_neg (fun hc => hj hc.1)]
  · rw [if_neg (fun hc => hi hc.1), if_neg (fun hc => hi hc.2)]
  · rw [if_neg (fun hc => hi hc.1), if_neg (fun hc => hi hc.2)]

theorem claim_C10_witness :
    entryOf exampleResult.matrix 0 1 = entryOf exampleResult.matrix 1 0 :=
  claim_C10 exampleHistory "pct" exampleResult evalCCM 0 1

theorem pyInt_of_nonneg (x : ℝ) (z : ℤ) (h0 : 0 ≤ x) (hz : (z : ℝ) ≤ x)
    (hz2 : x < z + 1) : pyInt x = z := by
  rw [pyInt, if_pos h0]
  exact Int.floor_eq_iff.2 ⟨hz, by exact_mod_cast hz2⟩

theorem interpChannel_bounds (s e2 : ℤ) (f : ℝ) (hs0 : 0 ≤ s) (hs1 : s ≤ 255)
    (he0 : 0 ≤ e2) (he1 : e2 ≤ 255) (hf0 : 0 ≤ f) (hf1 : f ≤ 1) :
    0 ≤ interpChannel s e2 f ∧ interpChannel s e2 f ≤ 255 := by
  have hsR0 : (0 : ℝ) ≤ (s : ℝ) := by exact_mod_cast hs0
  have hsR1 : (s : ℝ) ≤ 255 := by exact_mod_cast hs1
  have heR0 : (0 : ℝ) ≤ (e2 : ℝ) := by exact_mod_cast he0
  have heR1 : (e2 : ℝ) ≤ 255 := by exact_mod_cast he1
  have hx0 : (0 : ℝ) ≤ (s : ℝ) + ((e2 : ℝ) - (s : ℝ)) * f + 1 / 2 := by
    nlinarith [mul_nonneg hsR0 (by linarith : (0 : ℝ) ≤ 1 - f), mul_nonneg heR0 hf0]
  have hx1 : (s : ℝ) + ((e2 : ℝ) - (s : ℝ)) * f + 1 / 2 < 256 := by
    nlinarith [mul_nonneg (by linarith : (0 : ℝ) ≤ 255 - (s : ℝ))
        (by linarith : (0 : ℝ) ≤ 1 - f),
      mul_nonneg (by linarith : (0 : ℝ) ≤ 255 - (e2 : ℝ)) hf0]
  rw [interpChannel, pyInt, if_pos hx0]
  refine ⟨Int.floor_nonneg.2 hx0, ?_⟩
  have hlt : ⌊(s : ℝ) + ((e2 : ℝ) - (s : ℝ)) * f + 1 / 2⌋ < (256 : ℤ) :=
    Int.floor_lt.2 (by exact_mod_cast hx1)
  omega

theorem hexDigit_mem (n : Nat) : hexDigit n ∈ hexDigits := by
  rw [hexDigit, List.getD_eq_getElem?_getD]
  cases h : hexDigits[n]? with
  | none => simp [hexDigits]
  | some c =>
    have hm := List.getElem?_mem h
    simpa using hm

theorem padTwo_toHexNat (n : Nat) (h : n ≤ 255) :
    padTwo (toHexNat n) = [hexDigit (n / 16), hexDigit (n % 16)] := by
  by_cases h16 : n < 16
  · have hq : n / 16 = 0 := Nat.div_eq_of_lt h16
    have hr : n % 16 = n := Nat.mod_eq_of_lt h16
    rw [toHexNat, toHexAux, if_pos h16, padTwo, if_pos (by simp), hq, hr]
    rfl
  · have hq16 : n / 16 < 16 := by omega
    rw [toHexNat, toHexAux, if_neg h16]
    have hfuel : ∃ k, n = k + 1 := ⟨n - 1, by omega⟩
    obtain ⟨k, hk⟩ := hfuel
    rw [hk, toHexAux, if_pos (by omega : (k + 1) / 16 < 16)]
    rw [padTwo, if_neg (by simp)]
    rw [← hk]
    rfl

theorem pyHex02_data (n : ℤ) (h0 : 0 ≤ n) (h255 : n ≤ 255) :
    (pyHex02 n).data = [hexDigit (n.toNat / 16), hexDigit (n.toNat % 16)] := by
  rw [pyHex02, if_neg (not_lt.2 h0), padTwo_toHexNat n.toNat (by omega)]

theorem interpolate_colour_pattern (start stop : ℤ × ℤ × ℤ) (f : ℝ)
    (hs : byteTriple start) (ht : byteTriple stop) :
    matchesHexPattern (interpolate_colour start stop f) := by
  have hf0 : (0 : ℝ) ≤ max 0 (min 1 f) := le_max_left _ _
  have hf1 : max (0 : ℝ) (min 1 f) ≤ 1 := max_le (by norm_num) (min_le_left _ _)
  obtain ⟨hs1, hs2, hs3, hs4, hs5, hs6⟩ := hs
  obtain ⟨ht1, ht2, ht3, ht4, ht5, ht6⟩ := ht
  obtain ⟨c1a, c1b⟩ := interpChannel_bounds start.1 stop.1 _ hs1 hs2 ht1 ht2 hf0 hf1
  obtain ⟨c2a, c2b⟩ := interpChannel_bounds start.2.1 stop.2.1 _ hs3 hs4 ht3 ht4 hf0 hf1
  obtain ⟨c3a, c3b⟩ := interpChannel_bounds start.2.2 stop.2.2 _ hs5 hs6 ht5 ht6 hf0 hf1
  refine ⟨(pyHex02 (interpChannel start.1 stop.1 (max 0 (min 1 f)))).data ++
      (pyHex02 (interpChannel start.2.1 stop.2.1 (max 0 (min 1 f)))).data ++
      (pyHex02 (interpChannel start.2.2 stop.2.2 (max 0 (min 1 f)))).data, ?_, ?_, ?_⟩
  · rw [interpolate_colour, String.data_append, String.data_append, String.data_append]
    rfl
  · rw [pyHex02_data _ c1a c1b, pyHex02_data _ c2a c2b, pyHex02_data _ c3a c3b]
    rfl
  · intro c hc
    rw [pyHex02_data _ c1a c1b, pyHex02_data _ c2a c2b, pyHex02_data _ c3a c3b] at hc
    simp only [List.mem_append, List.mem_cons, List.not_mem_nil, or_false] at hc
    rcases hc with ((h | h) | (h | h)) | (h | h) <;> rw [h] <;> exact hexDigit_mem _

theorem clampNeg (v : ℝ) (hv : v ≤ -1) : max (-1 : ℝ) (min 1 v) = -1 := by
  rw [min_eq_right (hv.trans (by norm_num)), max_eq_left hv]

theorem clampPos (v : ℝ) (hv : 1 ≤ v) : max (-1 : ℝ) (min 1 v) = 1 := by
  rw [min_eq_left hv, max_eq_right (by norm_num)]

theorem evalHexNeg : correlation_to_hex (-1) = "#2166ac" := by
  have hcl : max (-1 : ℝ) (min 1 (-1)) = -1 := clampNeg (-1) (by norm_num)
  have hr : interpChannel 33 247 0 = 33 := by
    rw [interpChannel]
    apply pyInt_of_nonneg <;> norm_num
  have hg : interpChannel 102 247 0 = 102 := by
    rw [interpChannel]
    apply pyInt_of_nonneg <;> norm_num
  have hb : interpChannel 172 247 0 = 172 := by
    rw [interpChannel]
    apply pyInt_of_nonneg <;> norm_num
  rw [correlation_to_hex, hcl, if_neg (by norm_num), interpolate_colour]
  simp only [NEGATIVE_COLOUR, NEUTRAL_COLOUR]
  rw [show (1 : ℝ) + -1 = 0 by norm_num, show max (0 : ℝ) (min 1 0) = 0 by norm_num,
    hr, hg, hb]
  decide

theorem evalHexZero : correlation_to_hex 0 = "#f7f7f7" := by
  have hcl : max (-1 : ℝ) (min 1 0) = 0 := by norm_num
  have hr : interpChannel 247 178 0 = 247 := by
    rw [interpChannel]
    apply pyInt_of_nonneg <;> norm_num
  have hg : interpChannel 247 24 0 = 247 := by
    rw [interpChannel]
    apply pyInt_of_nonneg <;> norm_num
  have hb : interpChannel 247 43 0 = 247 := by
    rw [interpChannel]
    apply pyInt_of_nonneg <;> norm_num
  rw [correlation_to_hex, hcl, if_pos le_rfl, interpolate_colour]
  simp only [NEUTRAL_COLOUR, POSITIVE_COLOUR]
  rw [show max (0 : ℝ) (min 1 0) = 0 by norm_num, hr, hg, hb]
  decide

theorem evalHexPos : correlation_to_hex 1 = "#b2182b" := by
  have hcl : max (-1 : ℝ) (min 1 1) = 1 := clampPos 1 le_rfl
  have hr : interpChannel 247 178 1 = 178 := by
    rw [interpChannel]
    apply pyInt_of_nonneg <;> norm_num
  have hg : interpChannel 247 24 1 = 24 := by
    rw [interpChannel]
    apply pyInt_of_nonneg <;> norm_num
  have hb : interpChannel 247 43 1 = 43 := by
    rw [interpChannel]
    apply pyInt_of_nonneg <;> norm_num
  rw [correlation_to_hex, hcl, if_pos (by norm_num), interpolate_colour]
  simp only [NEUTRAL_COLOUR, POSITIVE_COLOUR]
  rw [show max (0 : ℝ) (min 1 1) = 1 by norm_num, hr, hg, hb]
  decide

/-- C7: correlation_to_hex maps -1.0 to "#2166ac", 0.0 to "#f7f7f7" and 1.0 to
"#b2182b"; inputs below -1 give the same output as -1 and inputs above 1 the
same output as 1; and every output is a hash sign followed by six lowercase
hex digits. -/
theorem claim_C7 :
    correlation_to_hex (-1) = "#2166ac" ∧
    correlation_to_hex 0 = "#f7f7f7" ∧
    correlation_to_hex 1 = "#b2182b" ∧
    (∀ v : ℝ, v < -1 → correlation_to_hex v = correlation_to_hex (-1)) ∧
    (∀ v : ℝ, 1 < v → correlation_to_hex v = correlation_to_hex 1) ∧
    (∀ v : ℝ, matchesHexPattern (correlation_to_hex v)) := by
  refine ⟨evalHexNeg, evalHexZero, evalHexPos, ?_, ?_, ?_⟩
  · intro v hv
    rw [correlation_to_hex, correlation_to_hex, clampNeg v hv.le,
      clampNeg (-1) (by norm_num)]
  · intro v hv
    rw [correlation_to_hex, correlation_to_hex, clampPos v hv.le, clampPos 1 le_rfl]
  · intro v
    rw [correlation_to_hex]
    split
    · exact interpolate_colour_pattern _ _ _ (by rw [NEUTRAL_COLOUR]; norm_num [byteTriple])
        (by rw [POSITIVE_COLOUR]; norm_num [byteTriple])
    · exact interpolate_colour_pattern _ _ _ (by rw [NEGATIVE_COLOUR]; norm_num [byteTriple])
        (by rw [NEUTRAL_COLOUR]; norm_num [byteTriple])

theorem claim_C7_witness :
    correlation_to_hex (-2) = correlation_to_hex (-1) ∧
    correlation_to_hex 2 = correlation_to_hex 1 ∧
    matchesHexPattern (correlation_to_hex (1 / 3)) :=
  ⟨claim_C7.2.2.2.1 (-2) (by norm_num), claim_C7.2.2.2.2.1 2 (by norm_num),
    claim_C7.2.2.2.2.2 (1 / 3)⟩

end CorrelHeatmap
